import Mathlib

/-!
Shallow embedding of the Gender-Stereotype-Text-Analyzer (src/main.py) and
proofs about its windowed co-occurrence extraction, aggregation, rendering
decisions and configuration loading.

Conventions of the embedding:
* a tagged token `(word, flag)` is a pair of strings;
* Python `range(a, b)` over non-negative bounds is `pyRange a b`; truncated
  `Nat` subtraction realises `max(0, i - w)`;
* the external segmenter (`pseg.cut`) is a black box: its outcome is passed
  in as an `Except`, the `error` case standing for a raised exception;
* the filesystem seen by the configuration loader is a black box
  `String → Option RawConfig`: `none` stands for any exception while opening
  or parsing the file at that path; Python's recursion limit, which bounds
  the mutual recursion `load_config` / `load_default_config`, is an explicit
  fuel argument;
* a `collections.Counter` built from a list is modelled by its count
  function and, where its keys matter (rendering), by an association list.
-/

namespace GSA

/-- A tagged token: (surface form, POS tag), as produced by `preprocess_text`. -/
abbrev Token := String × String

/-- The analyzer's configuration fields (`GenderStereotypeAnalyzer.__init__`,
main.py 92–97). Python keeps sets of strings; only membership is ever used,
so lists with membership tests are a faithful rendering. -/
structure Config where
  male_keywords : List String
  female_keywords : List String
  stopwords : List String
  adjective_pos_tags : List String
  window_size : Nat
  font_path : String
deriving DecidableEq

/-- Python `range(a, b)` for `0 ≤ a`: the list `[a, a+1, ..., b-1]`, empty
when `b ≤ a`. -/
def pyRange (a b : Nat) : List Nat := List.range' a (b - a)

/-- Read `words[i]`; the default is never reached at the indices the code
uses (proved below for the extraction windows). -/
def wordAt (words : List Token) (i : Nat) : Token := words.getD i ("", "")

/-- The adjective surface forms collected around one matching position `i`:
the two inner loops of `extract_adjectives` (main.py 199–206), left scan
`range(max(0, i - window_size), i)` then right scan
`range(i + 1, min(len(words), i + window_size + 1))`; truncated `Nat`
subtraction `i - window_size` is exactly `max(0, i - window_size)`. -/
def windowHits (cfg : Config) (words : List Token) (i : Nat) : List String :=
  ((pyRange (i - cfg.window_size) i).filter
      (fun j => decide ((wordAt words j).2 ∈ cfg.adjective_pos_tags))).map
    (fun j => (wordAt words j).1)
  ++ ((pyRange (i + 1) (min words.length (i + cfg.window_size + 1))).filter
      (fun j => decide ((wordAt words j).2 ∈ cfg.adjective_pos_tags))).map
    (fun j => (wordAt words j).1)

/-- Source `GenderStereotypeAnalyzer.extract_adjectives` (main.py 193–207):
enumerate all positions, and at every position whose surface form equals
`target` collect the window adjectives. The `except` branch is unreachable
(the body is total), so it is not modelled. -/
def extract_adjectives (cfg : Config) (words : List Token) (target : String) : List String :=
  (List.range words.length).flatMap (fun i =>
    if (wordAt words i).1 = target then windowHits cfg words i else [])

/-- The list `male_adjectives` built by the loop of `analyze`
(main.py 241–247): every position whose surface form is a male keyword
triggers a full `extract_adjectives` call on that surface form. -/
def maleAdjectives (cfg : Config) (words : List Token) : List String :=
  (List.range words.length).flatMap (fun i =>
    if (wordAt words i).1 ∈ cfg.male_keywords then
      extract_adjectives cfg words (wordAt words i).1
    else [])

/-- The list `female_adjectives` built by the loop of `analyze`
(main.py 241–247): the `elif` runs the female branch only when the surface
form is not a male keyword. -/
def femaleAdjectives (cfg : Config) (words : List Token) : List String :=
  (List.range words.length).flatMap (fun i =>
    if (wordAt words i).1 ∈ cfg.male_keywords then []
    else if (wordAt words i).1 ∈ cfg.female_keywords then
      extract_adjectives cfg words (wordAt words i).1
    else [])

/-- Count function of the `Counter` built from a list (`collections.Counter`,
main.py 254–255). -/
def counterOf (l : List String) : String → Nat := fun s => l.count s

/-- Source `preprocess_text` (main.py 183–191): the segmenter's token list if
it succeeds, the empty list if it raises. -/
def preprocess_text (seg : Except String (List Token)) : List Token :=
  match seg with
  | .ok ws => ws
  | .error _ => []

/-- Source `analyze` (main.py 228–257): preprocess, build the two adjective
lists, return the two counters (as count functions). -/
def analyze (cfg : Config) (seg : Except String (List Token)) :
    (String → Nat) × (String → Nat) :=
  let words := preprocess_text seg
  (counterOf (maleAdjectives cfg words), counterOf (femaleAdjectives cfg words))

/-- Distinct elements of a list in first-occurrence order: the key order of a
Python `Counter` built from that list. -/
def dedupKeepFirst : List String → List String
  | [] => []
  | x :: xs => x :: (dedupKeepFirst xs).filter (fun y => decide (¬ y = x))

/-- Association-list view of the `Counter` of `l`: its keys (distinct
elements, first-occurrence order) with their multiplicities. -/
def counterList (l : List String) : List (String × Nat) :=
  (dedupKeepFirst l).map (fun w => (w, l.count w))

/-- Keys of a counter, `list(counter.keys())` (main.py 307, 309). -/
def keysOf (c : List (String × Nat)) : List String := c.map Prod.fst

/-- Source `all_words = list(set(male_words + female_words))` (main.py 313).
Python's set iteration order is unspecified; the model fixes one
duplicate-free enumeration of the union, and the claims below use only its
length and underlying set. -/
def all_words (m f : List (String × Nat)) : List String :=
  (keysOf m ++ keysOf f).dedup

/-- Counter lookup with default, `counter.get(word, 0)` (main.py 319–320,
335–336). -/
def counterGet (c : List (String × Nat)) (w : String) : Nat :=
  ((c.find? (fun p => p.1 == w)).map Prod.snd).getD 0

/-- Whether `visualize` generates the comparison bar chart: the guard
`if all_words:` (main.py 315) around the chart and its `savefig`. -/
def chartWritten (m f : List (String × Nat)) : Bool :=
  !(all_words m f).isEmpty

/-- Data rows of `report.csv` (main.py 333–338): one row per element of
`all_words`, with the male and female counts defaulted to 0. -/
def csvRows (m f : List (String × Nat)) : List (String × Nat × Nat) :=
  (all_words m f).map (fun w => (w, counterGet m w, counterGet f w))

/-- Files a `visualize` call produces: whether wordcloud.png and
comparison.png are saved, and the data rows of report.csv when it is
written (`none` when the run aborts before reaching the CSV write). -/
structure VisualizeOutcome where
  wordcloud_png : Bool
  comparison_png : Bool
  report_csv : Option (List (String × Nat × Nat))
deriving DecidableEq

/-- Behaviour of the external wordcloud renderer on a counter: the bundled
wordcloud library's `generate_from_frequencies` raises ValueError on an
empty frequency dict (zero words), and succeeds otherwise. -/
def wordcloudRaisesOnEmpty : List (String × Nat) → Bool :=
  fun c => (keysOf c).isEmpty

/-- Control flow of `visualize` (main.py 262–345): the whole body is one
try/except. `generate_from_frequencies` runs on the male then the female
counter (273–287) before anything is saved; wordcloud.png is saved at 301,
the comparison chart only under the `if all_words:` guard (315–330), and
report.csv unconditionally afterwards (333–338). `wcRaises c = true` models
the external renderer raising on counter `c`; a raise reaches the except at
343, which logs and returns, so nothing from that point on is written. -/
def visualize_outputs (wcRaises : List (String × Nat) → Bool)
    (m f : List (String × Nat)) : VisualizeOutcome :=
  if wcRaises m then ⟨false, false, none⟩
  else if wcRaises f then ⟨false, false, none⟩
  else
    { wordcloud_png := true
      comparison_png := chartWritten m f
      report_csv := some (csvRows m f) }

/-- Parsed JSON settings object: each key of the settings schema is present
or absent (`config.get(key, default)`, main.py 109–114). -/
structure RawConfig where
  male_keywords : Option (List String)
  female_keywords : Option (List String)
  stopwords : Option (List String)
  adjective_pos_tags : Option (List String)
  window_size : Option Nat
  font_path : Option String
deriving DecidableEq

/-- Field assignment of `load_config` on a successfully parsed file
(main.py 109–114): missing array keys default to empty, `window_size` to 3,
`font_path` to "simhei.ttf". -/
def configFromRaw (raw : RawConfig) : Config :=
  { male_keywords := raw.male_keywords.getD []
    female_keywords := raw.female_keywords.getD []
    stopwords := raw.stopwords.getD []
    adjective_pos_tags := raw.adjective_pos_tags.getD []
    window_size := raw.window_size.getD 3
    font_path := raw.font_path.getD "simhei.ttf" }

/-- Hardcoded default configuration (main.py 127–133). -/
def hardcodedDefault : Config :=
  { male_keywords := ["他", "父亲", "儿子", "兄弟", "男人", "先生", "男孩"]
    female_keywords := ["她", "母亲", "女儿", "姐妹", "女人", "女士", "女孩"]
    stopwords := ["的", "了", "和", "是", "就", "都", "而", "及", "与", "着",
                  "或", "一个", "没有", "这个", "那个", "这样", "那样"]
    adjective_pos_tags := ["a", "ad", "an"]
    window_size := 3
    font_path := "simhei.ttf" }

/-- Path of the bundled default settings file (main.py 122). -/
def defaultConfigPath : String := "config.json"

/-- Source `load_default_config` (main.py 119–133) with `load_config` at the
default path inlined: on parse success take the parsed fields; on failure
Python re-enters `load_default_config` (the `except` of `load_config`), a
mutual recursion bounded by the interpreter's recursion limit — the fuel.
At fuel 0 the `RecursionError` is caught by the enclosing
`load_default_config`'s `except`, which assigns the hardcoded defaults. -/
def load_default_config (fs : String → Option RawConfig) : Nat → Config
  | 0 => hardcodedDefault
  | fuel + 1 =>
    match fs defaultConfigPath with
    | some raw => configFromRaw raw
    | none => load_default_config fs fuel

/-- Source `load_config` (main.py 104–117): parse the file at `path`; on any
failure fall back to `load_default_config`. -/
def load_config (fs : String → Option RawConfig) (fuel : Nat) (path : String) : Config :=
  match fs path with
  | some raw => configFromRaw raw
  | none => load_default_config fs fuel

/-- Index set scanned by the two window loops of `extract_adjectives` around a
matching position `p` (main.py 200 and 204), in scan order. -/
def windowIdx (cfg : Config) (n p : Nat) : List Nat :=
  pyRange (p - cfg.window_size) p ++ pyRange (p + 1) (min n (p + cfg.window_size + 1))

/-- Configuration of the spec's worked example: radius 1, male keyword 他,
female keyword 她, adjective tag a. -/
def exCfg : Config :=
  { male_keywords := ["他"], female_keywords := ["她"], stopwords := []
    adjective_pos_tags := ["a"], window_size := 1, font_path := "simhei.ttf" }

/-- Token sequence of the spec's worked example. -/
def exToks : List Token := [("他", "r"), ("好", "a"), ("她", "r"), ("坏", "a")]

/-- Configuration with a single male keyword 他, used to exhibit the
behaviour on a keyword that occurs twice. -/
def repCfg : Config :=
  { male_keywords := ["他"], female_keywords := [], stopwords := []
    adjective_pos_tags := ["a"], window_size := 1, font_path := "simhei.ttf" }

/-- Token sequence in which the keyword 他 occurs twice and the adjective 好
lies inside the window of only the first occurrence. -/
def repToks : List Token := [("他", "r"), ("好", "a"), ("X", "n"), ("他", "r")]

/-- Python `range(a, b)` over genuine integers, for the bounds as the source
writes them. -/
def intRange (a b : Int) : List Int :=
  (List.range (b - a).toNat).map (fun k : Nat => a + (k : Int))

/-- Every index the two window loops of `extract_adjectives` read, with the
loop bounds written as in the source (main.py 197–206): for each position `i`
whose surface form is the target, `range(max(0, i - window_size), i)` and
then `range(i + 1, min(len(words), i + window_size + 1))`, over the
integers. -/
def accessedIndices (cfg : Config) (words : List Token) (target : String) : List Int :=
  (List.range words.length).flatMap (fun i =>
    if (wordAt words i).1 = target then
      intRange (max 0 ((i : Int) - (cfg.window_size : Int))) (i : Int) ++
      intRange ((i : Int) + 1)
        (min (words.length : Int) ((i : Int) + (cfg.window_size : Int) + 1))
    else [])

/-- Configuration with the male keywords removed from the female keyword set
(they are shadowed by the `elif` of `analyze`, main.py 241–247). -/
def dropMaleFromFemale (cfg : Config) : Config :=
  { cfg with
    female_keywords := cfg.female_keywords.filter
      (fun w => decide (¬ w ∈ cfg.male_keywords)) }

/-- Raw settings object with every key absent. -/
def emptyRaw : RawConfig := ⟨none, none, none, none, none, none⟩

section Lemmas

lemma mem_pyRange {a b j : Nat} : j ∈ pyRange a b ↔ a ≤ j ∧ j < b := by
  unfold pyRange
  rw [List.mem_range']
  constructor
  · rintro ⟨i, hi, rfl⟩
    omega
  · intro h
    exact ⟨j - a, by omega, by omega⟩

lemma nodup_pyRange (a b : Nat) : (pyRange a b).Nodup :=
  List.nodup_range' a (b - a)

lemma filter_range_interval (n a b : Nat) :
    (List.range n).filter (fun j => decide (a ≤ j ∧ j < b)) = pyRange a (min b n) := by
  induction n with
  | zero => simp [pyRange]
  | succ n ih =>
    rw [List.range_succ, List.filter_append, ih]
    by_cases hb : n < b
    · by_cases ha : a ≤ n
      · have h1 : min b (n + 1) - a = (min b n - a) + 1 := by omega
        have h3 : a + 1 * (min b n - a) = n := by omega
        simp only [pyRange, h1, List.range'_concat, h3]
        simp [ha, hb]
      · have h1 : min b (n + 1) - a = 0 := by omega
        have h2 : min b n - a = 0 := by omega
        simp [pyRange, h1, h2, ha]
    · have h1 : min b (n + 1) = min b n := by omega
      simp [h1, hb]

lemma flatMap_range_eq_single {α : Type} (f : Nat → List α) (n i : Nat) (hi : i < n)
    (h : ∀ p, p < n → p ≠ i → f p = []) :
    (List.range n).flatMap f = f i := by
  induction n with
  | zero => omega
  | succ n ih =>
    rw [List.range_succ, List.flatMap_append]
    by_cases hin : i = n
    · have hnil : (List.range n).flatMap f = [] := by
        rw [List.flatMap_eq_nil_iff]
        intro p hp
        rw [List.mem_range] at hp
        exact h p (by omega) (by omega)
      rw [hnil]
      simp [hin]
    · have hi' : i < n := by omega
      rw [ih hi' (fun p hp hpi => h p (by omega) hpi)]
      have hfn : f n = [] := h n (by omega) (fun hn => hin hn.symm)
      simp [hfn]

lemma sum_map_ite {α : Type} (l : List α) (p : α → Bool) (C : Nat) :
    (l.map (fun a => if p a then C else 0)).sum = C * l.countP p := by
  induction l with
  | nil => simp
  | cons a t ih =>
    by_cases hp : p a
    · simp only [List.map_cons, List.sum_cons, if_pos hp, ih, List.countP_cons, hp,
        if_true, Nat.mul_add, Nat.mul_one]
      exact Nat.add_comm _ _
    · simp [hp, ih, List.countP_cons]

lemma maleAdjectives_nil_of_empty (cfg : Config) (words : List Token)
    (h : cfg.male_keywords = []) : maleAdjectives cfg words = [] := by
  rw [maleAdjectives, List.flatMap_eq_nil_iff]
  intro i _
  simp [h]

lemma femaleAdjectives_nil_of_empty (cfg : Config) (words : List Token)
    (h : cfg.female_keywords = []) : femaleAdjectives cfg words = [] := by
  rw [femaleAdjectives, List.flatMap_eq_nil_iff]
  intro i _
  by_cases hm : (wordAt words i).1 ∈ cfg.male_keywords <;> simp [hm, h]

lemma load_default_config_of_fail (fs : String → Option RawConfig) (fuel : Nat)
    (h : fs defaultConfigPath = none) : load_default_config fs fuel = hardcodedDefault := by
  induction fuel with
  | zero => rfl
  | succ n ih => simp [load_default_config, h, ih]

lemma windowHits_eq_windowIdx (cfg : Config) (words : List Token) (p : Nat) :
    windowHits cfg words p =
      ((windowIdx cfg words.length p).filter
          (fun j => decide ((wordAt words j).2 ∈ cfg.adjective_pos_tags))).map
        (fun j => (wordAt words j).1) := by
  rw [windowHits, windowIdx, List.filter_append, List.map_append]

lemma mem_windowIdx_lt {cfg : Config} {n p q : Nat}
    (h : q ∈ windowIdx cfg n p) (hp : p < n) : q < n := by
  rw [windowIdx, List.mem_append, mem_pyRange, mem_pyRange] at h
  omega

lemma nodup_windowIdx (cfg : Config) (n p : Nat) : (windowIdx cfg n p).Nodup := by
  rw [windowIdx]
  refine List.Nodup.append (nodup_pyRange _ _) (nodup_pyRange _ _) ?_
  intro q hq hq2
  rw [mem_pyRange] at hq hq2
  omega

lemma mem_intRange {a b x : Int} (h : x ∈ intRange a b) : a ≤ x ∧ x < b := by
  simp only [intRange, List.mem_map, List.mem_range] at h
  obtain ⟨k, hk, rfl⟩ := h
  omega

lemma filter_range_window (cfg : Config) (words : List Token) (a b : Nat) :
    (List.range words.length).filter
        (fun j => decide (a ≤ j ∧ j < b ∧ (wordAt words j).2 ∈ cfg.adjective_pos_tags)) =
      (pyRange a (min b words.length)).filter
        (fun j => decide ((wordAt words j).2 ∈ cfg.adjective_pos_tags)) := by
  rw [← filter_range_interval words.length a b, List.filter_filter]
  apply List.filter_congr
  intro j _
  by_cases h1 : a ≤ j <;> by_cases h2 : j < b <;>
    by_cases h3 : (wordAt words j).2 ∈ cfg.adjective_pos_tags <;>
    simp [h1, h2, h3]

lemma count_windowHits (cfg : Config) (words : List Token) (s : String) (p : Nat) :
    (windowHits cfg words p).count s =
      (windowIdx cfg words.length p).countP
        (fun q => decide ((wordAt words q).1 = s ∧
          (wordAt words q).2 ∈ cfg.adjective_pos_tags)) := by
  rw [windowHits_eq_windowIdx, List.count_eq_countP, List.countP_map, List.countP_filter]
  apply List.countP_congr
  intro q _
  simp [Function.comp]

end Lemmas

/-- Claim C2 fails on the code: at the spec's worked example the female
frequency table is not \x7b坏: 1\x7d, because 好 (index 1) also lies within
radius 1 of the female keyword 她 (index 2) and is tallied for it. -/
theorem claim_C2_counterexample :
    ¬ ((analyze exCfg (Except.ok exToks)).1 = counterOf ["好"] ∧
       (analyze exCfg (Except.ok exToks)).2 = counterOf ["坏"]) := by
  rintro ⟨-, h2⟩
  exact absurd (congrFun h2 "好") (by decide)

/-- Claim C2, amended: with tokens (他,r) (好,a) (她,r) (坏,a) and radius 1,
analyze returns the male table \x7b好: 1\x7d and the female table
\x7b好: 1, 坏: 1\x7d — 好 is within radius of both keyword occurrences and
appears in both tallies. -/
theorem claim_C2_amended :
    (analyze exCfg (Except.ok exToks)).1 = counterOf ["好"] ∧
    (analyze exCfg (Except.ok exToks)).2 = counterOf ["好", "坏"] ∧
    (analyze exCfg (Except.ok exToks)).1 "好" = 1 ∧
    (analyze exCfg (Except.ok exToks)).2 "好" = 1 ∧
    (analyze exCfg (Except.ok exToks)).2 "坏" = 1 := by
  refine ⟨?_, ?_, by decide, by decide, by decide⟩
  · exact congrArg counterOf (by decide)
  · exact congrArg counterOf (by decide)

/-- Claim C5 fails on the code: for two empty frequency tables (the empty
key union, as arises from empty input text) the word-cloud generation at
main.py 273–287 raises before the CSV write is ever reached, the except at
main.py 343 returns, and visualize writes nothing — no comparison.png, but
also no report.csv, against the claim's "still writes report.csv". The
second conjunct evaluates the same input under a never-raising renderer:
only then does the code do what the claim (and the CSV write's placement
outside the `if all_words:` guard) intends — chart skipped, wordcloud.png
saved, report.csv written with zero data rows. -/
theorem claim_C5_code_bug :
    visualize_outputs wordcloudRaisesOnEmpty [] [] =
      ⟨false, false, none⟩ ∧
    visualize_outputs (fun _ => false) [] [] =
      ⟨true, false, some []⟩ :=
  ⟨by decide, by decide⟩

/-- Claim C6: the CSV body has one row per element of the union of the two
key sets (so exactly its cardinality many rows), each row carrying the two
counts with 0 where the adjective is absent from a table. -/
theorem claim_C6 (m f : List (String × Nat)) :
    (csvRows m f).length = ((keysOf m).toFinset ∪ (keysOf f).toFinset).card ∧
    (∀ w cm cf, (w, cm, cf) ∈ csvRows m f →
      w ∈ (keysOf m).toFinset ∪ (keysOf f).toFinset ∧
      cm = counterGet m w ∧ cf = counterGet f w) ∧
    (∀ w, w ∈ (keysOf m).toFinset ∪ (keysOf f).toFinset →
      ∃ cm cf, (w, cm, cf) ∈ csvRows m f) ∧
    (csvRows m f).Pairwise (fun r r2 => r.1 ≠ r2.1) ∧
    (∀ w, ¬ w ∈ keysOf m → counterGet m w = 0) ∧
    (∀ w, ¬ w ∈ keysOf f → counterGet f w = 0) := by
  refine ⟨?_, ?_, ?_, ?_, ?_, ?_⟩
  · rw [csvRows, List.length_map, all_words, ← List.toFinset_append, List.card_toFinset]
  · intro w cm cf hrow
    rw [csvRows, List.mem_map] at hrow
    obtain ⟨x, hx, hxe⟩ := hrow
    obtain ⟨rfl, rfl, rfl⟩ : x = w ∧ cm = counterGet m x ∧ cf = counterGet f x := by
      refine ⟨?_, ?_, ?_⟩ <;> cases hxe <;> rfl
    rw [all_words, List.mem_dedup, List.mem_append] at hx
    refine ⟨?_, rfl, rfl⟩
    rw [Finset.mem_union, List.mem_toFinset, List.mem_toFinset]
    exact hx
  · intro w hw
    rw [Finset.mem_union, List.mem_toFinset, List.mem_toFinset] at hw
    refine ⟨counterGet m w, counterGet f w, ?_⟩
    rw [csvRows, List.mem_map]
    exact ⟨w, by rw [all_words, List.mem_dedup, List.mem_append]; exact hw, rfl⟩
  · rw [csvRows, List.pairwise_map]
    exact List.Pairwise.imp (fun h => by simpa using h) (List.nodup_dedup _)
  · intro w hw
    have hnone : m.find? (fun p => p.1 == w) = none := by
      rw [List.find?_eq_none]
      intro x hx hbeq
      exact hw (List.mem_map.mpr ⟨x, hx, by simpa using hbeq⟩)
    simp [counterGet, hnone]
  · intro w hw
    have hnone : f.find? (fun p => p.1 == w) = none := by
      rw [List.find?_eq_none]
      intro x hx hbeq
      exact hw (List.mem_map.mpr ⟨x, hx, by simpa using hbeq⟩)
    simp [counterGet, hnone]

/-- Claim C7: a raised segmenter error is recovered as the empty token
sequence, and the analysis then yields two everywhere-zero tables. -/
theorem claim_C7 (cfg : Config) (e : String) :
    preprocess_text (Except.error e) = [] ∧
    ∀ s, (analyze cfg (Except.error e)).1 s = 0 ∧
      (analyze cfg (Except.error e)).2 s = 0 :=
  ⟨rfl, fun _ => ⟨rfl, rfl⟩⟩

/-- Claim C8: configuration loading is total (the model's fuel is Python's
recursion limit, whose RecursionError the source catches), and when the
supplied file and the bundled default file both fail to parse, the result is
the hardcoded default configuration, at every fuel. -/
theorem claim_C8 (fs : String → Option RawConfig) (fuel : Nat) (path : String)
    (h1 : fs path = none) (h2 : fs defaultConfigPath = none) :
    load_config fs fuel path = hardcodedDefault := by
  simp [load_config, h1, load_default_config_of_fail fs fuel h2]

/-- Witness for C8 on a filesystem where every open fails. -/
theorem claim_C8_witness :
    load_config (fun _ => none) 7 "settings.json" = hardcodedDefault :=
  claim_C8 (fun _ => none) 7 "settings.json" rfl rfl

/-- Claim C9: a token in both keyword sets acts only as a male keyword — the
whole analysis is unchanged when such words are removed from the female set,
so they never contribute to the female table. -/
theorem claim_C9 (cfg : Config) (words : List Token) :
    maleAdjectives cfg words = maleAdjectives (dropMaleFromFemale cfg) words ∧
    femaleAdjectives cfg words = femaleAdjectives (dropMaleFromFemale cfg) words := by
  refine ⟨rfl, ?_⟩
  unfold femaleAdjectives
  rw [List.flatMap_def, List.flatMap_def]
  refine congrArg List.flatten (List.map_congr_left ?_)
  intro i _
  have hmk : (dropMaleFromFemale cfg).male_keywords = cfg.male_keywords := rfl
  have hext : ∀ t, extract_adjectives (dropMaleFromFemale cfg) words t =
      extract_adjectives cfg words t := fun _ => rfl
  rw [hmk, hext]
  by_cases h1 : (wordAt words i).1 ∈ cfg.male_keywords
  · rw [if_pos h1, if_pos h1]
  · rw [if_neg h1, if_neg h1]
    by_cases h2 : (wordAt words i).1 ∈ cfg.female_keywords
    · have hmem : (wordAt words i).1 ∈ (dropMaleFromFemale cfg).female_keywords := by
        simp [dropMaleFromFemale, List.mem_filter, h1, h2]
      rw [if_pos h2, if_pos hmem]
    · have hmem : ¬ (wordAt words i).1 ∈ (dropMaleFromFemale cfg).female_keywords := by
        simp [dropMaleFromFemale, List.mem_filter, h2]
      rw [if_neg h2, if_neg hmem]

/-- Claim C10: a parse-success with missing keys triggers no fallback (the
result ignores the rest of the filesystem and the fuel); each missing array
key becomes empty, a missing window_size becomes 3, a missing font_path
becomes simhei.ttf, and with both keyword sets absent the analysis of any
token sequence produces two empty adjective lists. -/
theorem claim_C10 (fs fs2 : String → Option RawConfig) (fuel fuel2 : Nat) (path : String)
    (raw : RawConfig) (h : fs path = some raw) (h2 : fs2 path = some raw) :
    load_config fs fuel path = load_config fs2 fuel2 path ∧
    (raw.male_keywords = none → (load_config fs fuel path).male_keywords = []) ∧
    (raw.female_keywords = none → (load_config fs fuel path).female_keywords = []) ∧
    (raw.stopwords = none → (load_config fs fuel path).stopwords = []) ∧
    (raw.adjective_pos_tags = none → (load_config fs fuel path).adjective_pos_tags = []) ∧
    (raw.window_size = none → (load_config fs fuel path).window_size = 3) ∧
    (raw.font_path = none → (load_config fs fuel path).font_path = "simhei.ttf") ∧
    (raw.male_keywords = none → raw.female_keywords = none → ∀ words,
      maleAdjectives (load_config fs fuel path) words = [] ∧
      femaleAdjectives (load_config fs fuel path) words = []) := by
  have hl : load_config fs fuel path = configFromRaw raw := by simp [load_config, h]
  have hl2 : load_config fs2 fuel2 path = configFromRaw raw := by simp [load_config, h2]
  rw [hl, hl2]
  refine ⟨rfl, ?_, ?_, ?_, ?_, ?_, ?_, ?_⟩
  · intro hn; simp [configFromRaw, hn]
  · intro hn; simp [configFromRaw, hn]
  · intro hn; simp [configFromRaw, hn]
  · intro hn; simp [configFromRaw, hn]
  · intro hn; simp [configFromRaw, hn]
  · intro hn; simp [configFromRaw, hn]
  · intro hm hf words
    exact ⟨maleAdjectives_nil_of_empty _ _ (by simp [configFromRaw, hm]),
      femaleAdjectives_nil_of_empty _ _ (by simp [configFromRaw, hf])⟩

/-- Witness for C10: an all-keys-missing settings file, two different
filesystems and fuels. -/
theorem claim_C10_witness :
    load_config (fun _ => some emptyRaw) 3 "cfg.json" =
      load_config (fun p => if p = "cfg.json" then some emptyRaw else none) 5 "cfg.json" :=
  (claim_C10 (fun _ => some emptyRaw)
    (fun p => if p = "cfg.json" then some emptyRaw else none)
    3 5 "cfg.json" emptyRaw rfl (by simp)).1

/-- Claim C3: when the target keyword occurs exactly once, at position `i`,
the extraction returns precisely the surface forms at the adjective-tagged
indices of the left window [max(0, i-r), i) followed by those of the right
window (i, min(n, i+r+1)), each in ascending index order. -/
theorem claim_C3 (cfg : Config) (words : List Token) (target : String) (i : Nat)
    (hi : i < words.length)
    (hit : (wordAt words i).1 = target)
    (huniq : ∀ p, p < words.length → (wordAt words p).1 = target → p = i) :
    extract_adjectives cfg words target =
      (((List.range words.length).filter (fun j =>
          decide (i - cfg.window_size ≤ j ∧ j < i ∧
            (wordAt words j).2 ∈ cfg.adjective_pos_tags))).map
        (fun j => (wordAt words j).1))
      ++ (((List.range words.length).filter (fun j =>
          decide (i + 1 ≤ j ∧ j < i + cfg.window_size + 1 ∧
            (wordAt words j).2 ∈ cfg.adjective_pos_tags))).map
        (fun j => (wordAt words j).1)) := by
  rw [extract_adjectives,
    flatMap_range_eq_single _ words.length i hi
      (fun p hp hpi => by rw [if_neg (fun heq => hpi (huniq p hp heq))]),
    if_pos hit, windowHits,
    filter_range_window cfg words (i - cfg.window_size) i,
    filter_range_window cfg words (i + 1) (i + cfg.window_size + 1),
    Nat.min_eq_left (Nat.le_of_lt hi), Nat.min_comm]

/-- Witness for C3 at the example input, target 她 at position 2. -/
theorem claim_C3_witness :
    extract_adjectives exCfg exToks "她" = ["好", "坏"] := by
  have h := claim_C3 exCfg exToks "她" 2 (by decide) (by decide) (by decide)
  rw [h]
  decide

/-- Claim C4: the two window loops only ever read indices that are
non-negative and below the sequence length, for every configuration, token
sequence and target word. -/
theorem claim_C4 (cfg : Config) (words : List Token) (target : String) (x : Int)
    (hx : x ∈ accessedIndices cfg words target) :
    0 ≤ x ∧ x < (words.length : Int) := by
  rw [accessedIndices, List.mem_flatMap] at hx
  obtain ⟨i, hi, hxw⟩ := hx
  rw [List.mem_range] at hi
  by_cases ht : (wordAt words i).1 = target
  · rw [if_pos ht, List.mem_append] at hxw
    rcases hxw with h | h
    · have := mem_intRange h
      omega
    · have := mem_intRange h
      omega
  · rw [if_neg ht] at hxw
    exact absurd hxw (List.not_mem_nil x)

/-- Witness for C4: index 1 is read while extracting around 她 in the example
input, and it is in bounds. -/
theorem claim_C4_witness : (0 : Int) ≤ 1 ∧ (1 : Int) < (exToks.length : Int) :=
  claim_C4 exCfg exToks "她" 1 (by decide)

/-- Claim C1 fails on the code: in repToks the adjective 好 (position 1) lies
inside the window of exactly one occurrence (m = 1) of the male keyword 他,
yet it is tallied twice in the male table, because each of the two
occurrences of 他 makes analyze call extract_adjectives, and every such call
re-scans the windows of all occurrences of 他. -/
theorem claim_C1_counterexample :
    ((List.range repToks.length).countP (fun p =>
      decide ((wordAt repToks p).1 = "他" ∧ 1 ∈ windowIdx repCfg repToks.length p))) = 1 ∧
    (wordAt repToks 1).1 = "好" ∧ (wordAt repToks 1).2 ∈ repCfg.adjective_pos_tags ∧
    (maleAdjectives repCfg repToks).count "好" = 2 :=
  ⟨by decide, by decide, by decide, by decide⟩

/-- Claim C1, amended: each keyword occurrence triggers an extraction call
that itself scans every occurrence of that keyword, so when `w` is the only
male keyword occurring in the text and the adjective-tagged surface form `s`
occurs exactly at position `j`, the male tally of `s` is k·m — k the number
of occurrences of `w`, m the number of occurrences of `w` whose window
contains `j` — not m; an adjective within radius of a male and a female
keyword occurrence still reaches both tallies. -/
theorem claim_C1_amended (cfg : Config) (words : List Token) (w s : String) (j : Nat)
    (hw : w ∈ cfg.male_keywords)
    (honly : ∀ p, p < words.length → (wordAt words p).1 ∈ cfg.male_keywords →
      (wordAt words p).1 = w)
    (hs : ∀ p, p < words.length → ((wordAt words p).1 = s ↔ p = j))
    (hj : j < words.length)
    (htag : (wordAt words j).2 ∈ cfg.adjective_pos_tags) :
    (maleAdjectives cfg words).count s =
      ((List.range words.length).countP (fun p => decide ((wordAt words p).1 = w))) *
      ((List.range words.length).countP (fun p =>
        decide ((wordAt words p).1 = w ∧ j ∈ windowIdx cfg words.length p))) := by
  have hwin : ∀ p, p < words.length → (windowHits cfg words p).count s =
      if j ∈ windowIdx cfg words.length p then 1 else 0 := by
    intro p hp
    rw [count_windowHits]
    have hcong : (windowIdx cfg words.length p).countP
        (fun q => decide ((wordAt words q).1 = s ∧
          (wordAt words q).2 ∈ cfg.adjective_pos_tags)) =
        (windowIdx cfg words.length p).countP (fun q => q == j) := by
      apply List.countP_congr
      intro q hq
      have hqn : q < words.length := mem_windowIdx_lt hq hp
      simp only [decide_eq_true_eq, beq_iff_eq]
      constructor
      · rintro ⟨hqs, -⟩
        exact (hs q hqn).mp hqs
      · rintro rfl
        exact ⟨(hs q hqn).mpr rfl, htag⟩
    rw [hcong, ← List.count_eq_countP]
    by_cases hmem : j ∈ windowIdx cfg words.length p
    · rw [if_pos hmem, List.count_eq_one_of_mem (nodup_windowIdx cfg words.length p) hmem]
    · rw [if_neg hmem, List.count_eq_zero_of_not_mem hmem]
  have hextract : (extract_adjectives cfg words w).count s =
      (List.range words.length).countP (fun p =>
        decide ((wordAt words p).1 = w ∧ j ∈ windowIdx cfg words.length p)) := by
    rw [extract_adjectives, List.count_flatMap]
    have hmap : (List.range words.length).map
        (List.count s ∘ fun i => if (wordAt words i).1 = w then windowHits cfg words i else []) =
        (List.range words.length).map (fun p =>
          if decide ((wordAt words p).1 = w ∧ j ∈ windowIdx cfg words.length p)
          then 1 else 0) := by
      apply List.map_congr_left
      intro p hp
      rw [List.mem_range] at hp
      show List.count s
        (if (wordAt words p).1 = w then windowHits cfg words p else []) = _
      by_cases hpw : (wordAt words p).1 = w
      · rw [if_pos hpw, hwin p hp]
        by_cases hmem : j ∈ windowIdx cfg words.length p
        · rw [if_pos hmem, if_pos (by simp [hpw, hmem])]
        · rw [if_neg hmem, if_neg (by simp [hpw, hmem])]
      · rw [if_neg hpw, if_neg (by simp [hpw])]
        rfl
    rw [hmap, sum_map_ite, Nat.one_mul]
  rw [maleAdjectives, List.count_flatMap]
  have hmap2 : (List.range words.length).map
      (List.count s ∘ fun i => if (wordAt words i).1 ∈ cfg.male_keywords then
        extract_adjectives cfg words (wordAt words i).1 else []) =
      (List.range words.length).map (fun p =>
        if decide ((wordAt words p).1 = w) then (extract_adjectives cfg words w).count s
        else 0) := by
    apply List.map_congr_left
    intro p hp
    rw [List.mem_range] at hp
    show List.count s (if (wordAt words p).1 ∈ cfg.male_keywords then
      extract_adjectives cfg words (wordAt words p).1 else []) = _
    by_cases hpm : (wordAt words p).1 ∈ cfg.male_keywords
    · have hpw : (wordAt words p).1 = w := honly p hp hpm
      rw [if_pos hpm, hpw, if_pos (by simp)]
    · have hpw : ¬ (wordAt words p).1 = w := fun hh => hpm (by rw [hh]; exact hw)
      rw [if_neg hpm, if_neg (by simp [hpw])]
      rfl
  rw [hmap2, sum_map_ite, hextract]
  exact Nat.mul_comm _ _

/-- Witness for C1's amended statement at the repeated-keyword input:
k = 2 occurrences of 他, m = 1 window containing 好, tally 2 = 2·1. -/
theorem claim_C1_witness :
    (maleAdjectives repCfg repToks).count "好" =
      ((List.range repToks.length).countP (fun p => decide ((wordAt repToks p).1 = "他"))) *
      ((List.range repToks.length).countP (fun p =>
        decide ((wordAt repToks p).1 = "他" ∧ 1 ∈ windowIdx repCfg repToks.length p))) :=
  claim_C1_amended repCfg repToks "他" "好" 1
    (by decide) (by decide) (by decide) (by decide) (by decide)

end GSA
